import Mathlib

/-!
Shallow embedding of the Order Composer logic of the mini-crm dashboard
(src/unnamed/part_000).  JavaScript strings are modelled as `List Char`
where character-level processing (trim, parseInt) matters, and as `String`
where only equality is used (Mongo ids, status values).  JavaScript numbers
are modelled exactly: integers as `Int`, decimal amounts as `ℚ`
(floating-point rounding error is outside the model).  A field that may be
absent or `undefined` in a record coming from the server is an `Option`.
-/

/-- Whitespace test used by the model of `String.prototype.trim`. -/
def isJsSpace (c : Char) : Bool := c.isWhitespace

/-- Model of JavaScript `s.trim()`: drop leading and trailing whitespace. -/
def trimChars (s : List Char) : List Char :=
  ((s.dropWhile isJsSpace).reverse.dropWhile isJsSpace).reverse

/-- Decimal representation of a natural number, as produced by JavaScript
template interpolation of `Date.now()`. -/
def natToChars (n : Nat) : List Char :=
  if n = 0 then ['0'] else ((Nat.digits 10 n).map Nat.digitChar).reverse

/-- Hexadecimal digit test (`parseInt` with no radix honours a `0x` head). -/
def isHexDigitChar (c : Char) : Bool :=
  c.isDigit || ('a' ≤ c && c ≤ 'f') || ('A' ≤ c && c ≤ 'F')

/-- Numeric value of a (decimal or hexadecimal) digit character. -/
def digitVal (c : Char) : Nat :=
  if c.isDigit then c.toNat - '0'.toNat
  else if 'a' ≤ c && c ≤ 'f' then c.toNat - 'a'.toNat + 10
  else c.toNat - 'A'.toNat + 10

/-- Value of a digit run in the given base. -/
def charsToNat (base : Nat) (ds : List Char) : Nat :=
  ds.foldl (fun acc c => acc * base + digitVal c) 0

/-- Model of JavaScript `parseInt(s)` with no radix argument: skip leading
whitespace, read an optional sign, honour a `0x`/`0X` head as hexadecimal,
then take the longest run of digits; `none` stands for `NaN` (no digits).
The numeric value is modelled exactly (double rounding of very long digit
runs is outside the model). -/
def jsParseInt (s : List Char) : Option Int :=
  let t := s.dropWhile isJsSpace
  let sign : Int := match t with
    | '-' :: _ => -1
    | _ => 1
  let u : List Char := match t with
    | '-' :: r => r
    | '+' :: r => r
    | _ => t
  match u with
  | '0' :: x :: r =>
    if x = 'x' || x = 'X' then
      let ds := r.takeWhile isHexDigitChar
      if ds = [] then none else some (sign * (charsToNat 16 ds : Int))
    else
      let ds := u.takeWhile Char.isDigit
      if ds = [] then none else some (sign * (charsToNat 10 ds : Int))
  | _ =>
    let ds := u.takeWhile Char.isDigit
    if ds = [] then none else some (sign * (charsToNat 10 ds : Int))

/-- Model of `parseInt(qty) || 1` in `updateItemQty`: the falsy results of
`parseInt` are `NaN` (`none`) and `0`; any other parsed value passes
through (negative values included). -/
def parseIntOr1 (raw : List Char) : Int :=
  match jsParseInt raw with
  | none => 1
  | some n => if n = 0 then 1 else n

/-- A catalog item as the composer reads it (`_id`, `itemId`, `name`,
`price`; `cost` and `photo` are never read by the composer and are
omitted). -/
structure Item where
  mongoId : String
  itemId : String
  name : String
  price : Option ℚ
deriving DecidableEq

/-- One order line: `{ itemMongoId, quantity, price }`.  `quantity` and
`price` are `Option`s because lines arriving from the server may lack
them; the composer itself always writes both. -/
structure OrderLine where
  itemMongoId : String
  quantity : Option Int
  price : Option ℚ
deriving DecidableEq

/-- Model of `toggleItemInOrder(item)` (part_000 lines 116-123): if some line
references the item, keep only the lines that do not; otherwise append
`{ itemMongoId: item._id, quantity: 1, price: item.price }`. -/
def toggleItemInOrder (lines : List OrderLine) (item : Item) : List OrderLine :=
  if (lines.find? (fun i => i.itemMongoId == item.mongoId)).isSome then
    lines.filter (fun i => i.itemMongoId != item.mongoId)
  else
    lines ++ [{ itemMongoId := item.mongoId, quantity := some 1, price := item.price }]

/-- Model of `updateItemQty(id, qty)` (part_000 lines 124-130): map over the lines,
replacing the quantity of every line whose reference equals `id` with
`parseInt(qty) || 1`. -/
def updateItemQty (lines : List OrderLine) (id : String) (qty : List Char) : List OrderLine :=
  lines.map (fun i =>
    if i.itemMongoId == id then { i with quantity := some (parseIntOr1 qty) } else i)

/-- Model of `i.quantity || 1`: a missing quantity and a zero quantity count as 1. -/
def qtyOrOne (l : OrderLine) : Int :=
  match l.quantity with
  | none => 1
  | some q => if q = 0 then 1 else q

/-- Model of `parseFloat(i.price || 0)`: a missing price counts as 0; `parseFloat`
of a number is the number itself (and `parseFloat(0) = 0`). -/
def priceOrZero (l : OrderLine) : ℚ := l.price.getD 0

/-- Model of `x.toFixed(2)`: per ECMAScript, a negative argument is
rendered as `-` followed by the rendering of its negation, and the integer
numerator `n` of the two-decimal rendering is the one closest to `100 * y`
(for the now non-negative `y`), ties to the larger `n`; that is,
`n = floor(100 * y + 1/2)`, computed here on the non-negative rational
`z = 100 * y + 1/2` as `z.num.toNat / z.den`. -/
def toFixed2 (x : ℚ) : String :=
  let sgn := if x < 0 then "-" else ""
  let y : ℚ := if x < 0 then -x else x
  let z : ℚ := y * 100 + 1 / 2
  let n : Nat := z.num.toNat / z.den
  let ip := n / 100
  let fp := n % 100
  sgn ++ toString ip ++ "." ++ (if fp < 10 then "0" ++ toString fp else toString fp)

/-- Model of `o.items?.reduce((sum, i) => sum + (i.quantity || 1), 0) || 0`
(part_000 line 379).  On an actual list the optional chaining is the plain
reduce; the trailing `|| 0` re-maps a falsy (zero) result to 0. -/
def totalQty (lines : List OrderLine) : Int :=
  let r := lines.foldl (fun sum i => sum + qtyOrOne i) 0
  if r = 0 then 0 else r

/-- Model of `o.items?.reduce((sum, i) => sum + (i.quantity || 1) * parseFloat(i.price || 0), 0).toFixed(2)`
(part_000 line 380). -/
def totalPrice (lines : List OrderLine) : String :=
  toFixed2 (lines.foldl (fun sum i => sum + (qtyOrOne i : ℚ) * priceOrZero i) 0)

/-- The spec's `computeTotals(lines)` bundles the two reductions of
part_000 lines 379-380. -/
def computeTotals (lines : List OrderLine) : Int × String :=
  (totalQty lines, totalPrice lines)

/-- The code-generation pattern shared by `createItem` (line 103) and
`createOrder` (line 133):
`form.id && form.id.trim() !== '' ? form.id : pre + Date.now()`. -/
def generateCode (pre userId : List Char) (now : Nat) : List Char :=
  if userId ≠ [] ∧ trimChars userId ≠ [] then userId else pre ++ natToChars now

/-- The order form state `{ customerId, orderId, status }`. -/
structure OrderForm where
  customerId : String
  orderId : List Char
  status : String
deriving DecidableEq

/-- A persisted order as the dashboard displays it. -/
structure Order where
  mongoId : String
  orderId : List Char
  customerId : String
  status : String
  items : List OrderLine
deriving DecidableEq

/-- The request body `{ customerId, orderId, status, items }` that
`createOrder` submits to the order sink. -/
structure OrderPayload where
  customerId : String
  orderId : List Char
  status : String
  items : List OrderLine
deriving DecidableEq

/-- The slice of component state that `createOrder` reads and writes. -/
structure ComposerState where
  orders : List Order
  orderForm : OrderForm
  orderItems : List OrderLine
deriving DecidableEq

/-- Model of `createOrder()` (part_000 lines 131-150).  `persist` stands for the
external order sink (the POST round trip); `now` for `Date.now()`.  The
second component reports what was submitted: `none` when the guard
`if (!orderForm.customerId || orderItems.length === 0) return;` fires. -/
def createOrder (st : ComposerState) (now : Nat) (persist : OrderPayload → Order) :
    ComposerState × Option OrderPayload :=
  if st.orderForm.customerId = "" ∨ st.orderItems.length = 0 then (st, none)
  else
    let oid := generateCode "ORD_".toList st.orderForm.orderId now
    let body : OrderPayload :=
      { customerId := st.orderForm.customerId, orderId := oid,
        status := st.orderForm.status, items := st.orderItems }
    ({ orders := persist body :: st.orders,
       orderForm := { customerId := "", orderId := [], status := "Pending" },
       orderItems := [] }, some body)

/-- The local-state update of `updateOrderStatus(orderId, newStatus)`
(part_000 lines 151-160): map over the orders, replacing the status of the
order whose `_id` matches. -/
def updateOrderStatus (orders : List Order) (oid : String) (newStatus : String) :
    List Order :=
  orders.map (fun o => if o.mongoId == oid then { o with status := newStatus } else o)

/-! Helper lemmas. -/

/-- A left fold that only adds images of the elements is the sum of the
mapped list. -/
theorem foldl_add_eq_sum {α M : Type} [AddCommMonoid M] (f : α → M) (l : List α) (a : M) :
    l.foldl (fun s x => s + f x) a = a + (l.map f).sum := by
  induction l generalizing a with
  | nil => simp
  | cons x xs ih => simp [ih, add_assoc]

/-- A list containing a non-whitespace character does not trim to the
empty list. -/
theorem trimChars_ne_nil {s : List Char} {c : Char} (hc : c ∈ s)
    (hw : isJsSpace c = false) : trimChars s ≠ [] := by
  intro h
  unfold trimChars at h
  rw [List.reverse_eq_nil_iff, List.dropWhile_eq_nil_iff] at h
  have hcd : c ∈ s.dropWhile isJsSpace := by
    have hsplit : s.takeWhile isJsSpace ++ s.dropWhile isJsSpace = s :=
      List.takeWhile_append_dropWhile ..
    rcases List.mem_append.1 (hsplit ▸ hc) with h1 | h1
    · exact absurd (List.mem_takeWhile_imp h1) (by simp [hw])
    · exact h1
  have := h c (List.mem_reverse.2 hcd)
  simp [hw] at this

/-- The decimal rendering of a natural number is never empty. -/
theorem natToChars_ne_nil (n : Nat) : natToChars n ≠ [] := by
  unfold natToChars
  split
  · simp
  · simp only [ne_eq, List.reverse_eq_nil_iff, List.map_eq_nil_iff]
    exact Nat.digits_ne_nil_iff_ne_zero.2 (by assumption)

/-- Every character of the decimal rendering of a natural number is a
digit, hence not whitespace. -/
theorem natToChars_not_space {n : Nat} {c : Char} (hc : c ∈ natToChars n) :
    isJsSpace c = false := by
  unfold natToChars at hc
  split at hc
  · simp at hc
    subst hc
    decide
  · rw [List.mem_reverse] at hc
    obtain ⟨d, hd, rfl⟩ := List.mem_map.1 hc
    have hlt : d < 10 := Nat.digits_lt_base (by norm_num) hd
    interval_cases d <;> decide

/-- The sanitised quantity `parseInt(qty) || 1` is never zero, and the
fallback 1 is taken exactly when the parse is `NaN` or yields 0. -/
theorem parseIntOr1_ne_zero (raw : List Char) : parseIntOr1 raw ≠ 0 := by
  unfold parseIntOr1
  cases jsParseInt raw with
  | none => simp
  | some n =>
    dsimp only
    split
    · simp
    · assumption

/-! Claim theorems. -/

/-- C1 counterexample: on the raw quantity string "-5", `parseInt` yields
-5, which is truthy, so `updateItemQty` writes the non-positive quantity
-5 instead of substituting 1 as the claim states. -/
theorem updateItemQty_counterexample :
    updateItemQty [⟨"a", some 1, some 2⟩] "a" "-5".toList =
      [⟨"a", some (-5), some 2⟩] ∧ (-5 : Int) ≤ 0 := by
  constructor
  · rfl
  · decide

/-- C1 (amended): `setQuantity` parses the raw value as an integer and
substitutes 1 exactly when the parse fails (`NaN`) or yields zero; a
parsed negative value is written unchanged, so every quantity it writes is
a nonzero (not necessarily positive) integer.  Matching lines get that
quantity with their other fields unchanged; non-matching lines pass
through unchanged. -/
theorem updateItemQty_spec (lines : List OrderLine) (itemId : String) (raw : List Char) :
    List.Forall₂ (fun l r =>
      (l.itemMongoId = itemId → r = { l with quantity := some (parseIntOr1 raw) }) ∧
      (l.itemMongoId ≠ itemId → r = l)) lines (updateItemQty lines itemId raw) ∧
    parseIntOr1 raw ≠ 0 ∧
    (jsParseInt raw = none ∨ jsParseInt raw = some 0 → parseIntOr1 raw = 1) ∧
    (∀ n : Int, jsParseInt raw = some n → n ≠ 0 → parseIntOr1 raw = n) := by
  refine ⟨?_, parseIntOr1_ne_zero raw, ?_, ?_⟩
  · induction lines with
    | nil => simp [updateItemQty]
    | cons x xs ih =>
      refine List.Forall₂.cons ⟨?_, ?_⟩ ih
      · intro h
        simp [h]
      · intro h
        simp [h]
  · rintro (h | h) <;> simp [parseIntOr1, h]
  · intro n h hn
    simp [parseIntOr1, h, hn]

/-- C2 counterexample: toggling an item that is already selected with
quantity 2 removes it, and toggling again re-adds it with quantity 1, so
the pair of toggles does not return the original line set. -/
theorem toggle_twice_counterexample :
    toggleItemInOrder
        (toggleItemInOrder [⟨"a", some 2, some 5⟩] ⟨"a", "A1", "Widget", some 5⟩)
        ⟨"a", "A1", "Widget", some 5⟩ ≠ [⟨"a", some 2, some 5⟩] := by
  decide

/-- C2 (amended): toggling the same item twice returns a line set equal to
the original whenever the item is not referenced in the original line set
(the first toggle appends it, the second removes exactly that line). -/
theorem toggle_twice_of_not_mem (lines : List OrderLine) (item : Item)
    (h : ∀ l ∈ lines, l.itemMongoId ≠ item.mongoId) :
    toggleItemInOrder (toggleItemInOrder lines item) item = lines := by
  have h1 : lines.find? (fun i => i.itemMongoId == item.mongoId) = none := by
    rw [List.find?_eq_none]
    intro l hl
    simpa using h l hl
  have e1 : toggleItemInOrder lines item =
      lines ++ [{ itemMongoId := item.mongoId, quantity := some 1, price := item.price }] := by
    unfold toggleItemInOrder
    rw [h1]
    rfl
  rw [e1]
  unfold toggleItemInOrder
  rw [if_pos]
  · rw [List.filter_append]
    have e2 : lines.filter (fun i => i.itemMongoId != item.mongoId) = lines := by
      rw [List.filter_eq_self]
      intro l hl
      simpa using h l hl
    rw [e2]
    simp
  · rw [List.find?_isSome]
    exact ⟨_, List.mem_append_right _ (List.mem_singleton_self _), by simp⟩

/-- C2 witness: toggling an item absent from a one-line set twice returns
that set. -/
theorem toggle_twice_witness :
    toggleItemInOrder
        (toggleItemInOrder [⟨"b", some 3, some 2⟩] ⟨"a", "A1", "Widget", some 5⟩)
        ⟨"a", "A1", "Widget", some 5⟩ = [⟨"b", some 3, some 2⟩] :=
  toggle_twice_of_not_mem _ _ (by decide)

/-- C3: on a line set respecting the data model's uniqueness invariant,
`toggleLine` removes exactly the line referencing the item's identity when
one is present (all other lines pass through in order), and otherwise
appends exactly one new line with quantity 1 and the item's price; being a
pure function it has no effect beyond the returned line set. -/
theorem toggleItemInOrder_spec (lines : List OrderLine) (item : Item)
    (hnd : (lines.map OrderLine.itemMongoId).Nodup) :
    (∀ l ∈ lines, l.itemMongoId = item.mongoId →
      ∃ front back, lines = front ++ l :: back ∧
        toggleItemInOrder lines item = front ++ back) ∧
    ((∀ l ∈ lines, l.itemMongoId ≠ item.mongoId) →
      toggleItemInOrder lines item =
        lines ++ [{ itemMongoId := item.mongoId, quantity := some 1, price := item.price }]) := by
  constructor
  · intro l hl hid
    obtain ⟨front, back, rfl⟩ := List.append_of_mem hl
    refine ⟨front, back, rfl, ?_⟩
    have hnd' := hnd
    rw [List.map_append, List.map_cons, List.nodup_append] at hnd'
    obtain ⟨-, hcons, hdis⟩ := hnd'
    have hfr : ∀ x ∈ front, x.itemMongoId ≠ item.mongoId := by
      intro x hx he
      exact hdis (List.mem_map_of_mem _ hx) (by simp [he, hid])
    have hbk : ∀ x ∈ back, x.itemMongoId ≠ item.mongoId := by
      intro x hx he
      rw [List.nodup_cons] at hcons
      exact hcons.1 (hid ▸ he ▸ List.mem_map_of_mem OrderLine.itemMongoId hx)
    unfold toggleItemInOrder
    rw [if_pos]
    · rw [List.filter_append, List.filter_cons]
      have e1 : front.filter (fun i => i.itemMongoId != item.mongoId) = front := by
        rw [List.filter_eq_self]
        intro x hx
        simpa using hfr x hx
      have e2 : back.filter (fun i => i.itemMongoId != item.mongoId) = back := by
        rw [List.filter_eq_self]
        intro x hx
        simpa using hbk x hx
      rw [e1, e2]
      simp [hid]
    · rw [List.find?_isSome]
      exact ⟨l, hl, by simp [hid]⟩
  · intro h
    have h1 : lines.find? (fun i => i.itemMongoId == item.mongoId) = none := by
      rw [List.find?_eq_none]
      intro x hx
      simpa using h x hx
    unfold toggleItemInOrder
    rw [h1]
    rfl

/-- C3 witness: toggling an item not referenced by the single line of a
line set appends one new line with quantity 1 and the item's price. -/
theorem toggleItemInOrder_spec_witness :
    toggleItemInOrder [⟨"b", some 2, some 3⟩] ⟨"a", "A1", "Widget", some 5⟩ =
      [⟨"b", some 2, some 3⟩, ⟨"a", some 1, some 5⟩] :=
  (toggleItemInOrder_spec [⟨"b", some 2, some 3⟩] ⟨"a", "A1", "Widget", some 5⟩
    (by decide)).2 (by decide)

/-- C6: uniqueness of the item reference within the line set is preserved
by both composer operations: if each reference appears at most once before
a `toggleLine` or a `setQuantity`, it appears at most once after. -/
theorem uniqueRef_invariant (lines : List OrderLine) (item : Item) (itemId : String)
    (raw : List Char) (hnd : (lines.map OrderLine.itemMongoId).Nodup) :
    ((toggleItemInOrder lines item).map OrderLine.itemMongoId).Nodup ∧
    ((updateItemQty lines itemId raw).map OrderLine.itemMongoId).Nodup := by
  constructor
  · unfold toggleItemInOrder
    split
    · exact List.Nodup.sublist ((List.filter_sublist lines).map _) hnd
    · rename_i hf
      have hnone : lines.find? (fun i => i.itemMongoId == item.mongoId) = none :=
        Option.not_isSome_iff_eq_none.1 hf
      have hno : ∀ x ∈ lines, x.itemMongoId ≠ item.mongoId := by
        intro x hx
        simpa using List.find?_eq_none.1 hnone x hx
      rw [List.map_append, List.nodup_append]
      refine ⟨hnd, by simp, ?_⟩
      intro a ha hb
      obtain ⟨x, hx, rfl⟩ := List.mem_map.1 ha
      simp only [List.map_cons, List.map_nil, List.mem_singleton] at hb
      exact hno x hx hb
  · have e : (updateItemQty lines itemId raw).map OrderLine.itemMongoId =
        lines.map OrderLine.itemMongoId := by
      unfold updateItemQty
      rw [List.map_map]
      refine List.map_congr_left ?_
      intro x hx
      dsimp only [Function.comp]
      split <;> rfl
    rw [e]
    exact hnd

/-- C6 witness: the invariant holds concretely after toggling a new item
and after setting a quantity on a one-line set. -/
theorem uniqueRef_invariant_witness :
    ((toggleItemInOrder [⟨"a", some 1, some 2⟩] ⟨"b", "B1", "Gadget", some 4⟩).map
        OrderLine.itemMongoId).Nodup ∧
    ((updateItemQty [⟨"a", some 1, some 2⟩] "a" "2".toList).map
        OrderLine.itemMongoId).Nodup :=
  uniqueRef_invariant [⟨"a", some 1, some 2⟩] ⟨"b", "B1", "Gadget", some 4⟩ "a"
    "2".toList (by decide)

unseal Rat.add Rat.mul Rat.inv in
/-- C4: `computeTotals` returns the sum of the line quantities (a
missing or zero quantity counted as 1) and the two-decimal rendering of
the sum of quantity times price (a missing price counted as 0); on the
empty line set it returns totalQuantity 0 and totalPrice "0.00". -/
theorem computeTotals_spec (lines : List OrderLine) :
    computeTotals lines =
      ((lines.map qtyOrOne).sum,
        toFixed2 ((lines.map (fun i => (qtyOrOne i : ℚ) * priceOrZero i)).sum)) ∧
    computeTotals [] = ((0 : Int), "0.00") := by
  constructor
  · unfold computeTotals totalQty totalPrice
    rw [foldl_add_eq_sum, foldl_add_eq_sum, zero_add, zero_add]
    by_cases h : (lines.map qtyOrOne).sum = 0
    · rw [if_pos h, h]
    · rw [if_neg h]
  · rfl

unseal Rat.add Rat.mul Rat.inv in
/-- C5: `computeTotals` on the spec's example input (quantities 2 and 1,
prices 10 and 5.5) returns totalQuantity 3 and totalPrice "25.50". -/
theorem computeTotals_example :
    computeTotals [⟨"", some 2, some 10⟩, ⟨"", some 1, some (11 / 2)⟩] =
      ((3 : Int), "25.50") := rfl

/-- C7: when the user-supplied identifier is blank (its trim is empty),
the generated code is the prefix followed by the decimal timestamp, hence
non-blank and an extension of the prefix; a non-blank identifier is used
unchanged. -/
theorem generateCode_spec (pre userId : List Char) (now : Nat) :
    (trimChars userId = [] →
      generateCode pre userId now = pre ++ natToChars now ∧
      trimChars (generateCode pre userId now) ≠ [] ∧
      ∃ rest, generateCode pre userId now = pre ++ rest) ∧
    (trimChars userId ≠ [] → generateCode pre userId now = userId) := by
  constructor
  · intro hb
    have hcond : ¬(userId ≠ [] ∧ trimChars userId ≠ []) := fun hc => hc.2 hb
    have he : generateCode pre userId now = pre ++ natToChars now := by
      unfold generateCode
      rw [if_neg hcond]
    refine ⟨he, ?_, natToChars now, he⟩
    rw [he]
    obtain ⟨c, hc⟩ := List.exists_mem_of_ne_nil _ (natToChars_ne_nil now)
    exact trimChars_ne_nil (List.mem_append_right pre hc) (natToChars_not_space hc)
  · intro hnb
    have h1 : userId ≠ [] := by
      intro h
      rw [h] at hnb
      exact hnb rfl
    unfold generateCode
    rw [if_pos ⟨h1, hnb⟩]

/-- C7 witness: with a whitespace-only identifier the generated order code
is the prefix plus the timestamp, and it is non-blank. -/
theorem generateCode_spec_witness :
    generateCode "ORD_".toList " ".toList 17 = "ORD_".toList ++ natToChars 17 ∧
    trimChars (generateCode "ORD_".toList " ".toList 17) ≠ [] := by
  have h := (generateCode_spec "ORD_".toList " ".toList 17).1 (by decide)
  exact ⟨h.1, h.2.1⟩

/-- C8: the composer operations are total functions of their inputs —
every line set, item, item id and raw quantity string produces a result,
no input is rejected — and invalid quantity input is sanitised to the safe
default 1 rather than surfaced. -/
theorem composer_ops_total (lines : List OrderLine) (item : Item) (itemId : String)
    (raw : List Char) :
    (∃ out, toggleItemInOrder lines item = out) ∧
    (∃ out, updateItemQty lines itemId raw = out) ∧
    (∃ q s, computeTotals lines = (q, s)) ∧
    parseIntOr1 raw ≠ 0 ∧
    (jsParseInt raw = none → parseIntOr1 raw = 1) := by
  refine ⟨⟨_, rfl⟩, ⟨_, rfl⟩, ⟨_, _, rfl⟩, parseIntOr1_ne_zero raw, ?_⟩
  intro h
  simp [parseIntOr1, h]

/-- C9: when no customer is selected or no line is selected, the
order-creation operation submits nothing and leaves the whole composer
state (orders list, order form, selected line set) unchanged. -/
theorem createOrder_guard (st : ComposerState) (now : Nat)
    (persist : OrderPayload → Order)
    (h : st.orderForm.customerId = "" ∨ st.orderItems = []) :
    createOrder st now persist = (st, none) := by
  have hc : st.orderForm.customerId = "" ∨ st.orderItems.length = 0 := by
    rcases h with h | h
    · exact Or.inl h
    · exact Or.inr (by rw [h]; rfl)
  unfold createOrder
  rw [if_pos hc]

/-- C9 witness: with an empty customer id and an empty line set, creating
an order changes nothing and submits nothing. -/
theorem createOrder_guard_witness :
    createOrder ⟨[], ⟨"", [], "Pending"⟩, []⟩ 0
        (fun _ => ⟨"", [], "", "Pending", []⟩) =
      (⟨[], ⟨"", [], "Pending"⟩, []⟩, none) :=
  createOrder_guard ⟨[], ⟨"", [], "Pending"⟩, []⟩ 0
    (fun _ => ⟨"", [], "", "Pending", []⟩) (Or.inl rfl)

/-- C10: the status update maps the orders list, giving every order with
the matching identity the new status while keeping its identity, code,
customer reference and items, and leaving every other order unchanged. -/
theorem updateOrderStatus_spec (orders : List Order) (oid newStatus : String) :
    List.Forall₂ (fun o r =>
      (o.mongoId = oid →
        r.status = newStatus ∧ r.mongoId = o.mongoId ∧ r.orderId = o.orderId ∧
        r.customerId = o.customerId ∧ r.items = o.items) ∧
      (o.mongoId ≠ oid → r = o)) orders (updateOrderStatus orders oid newStatus) := by
  induction orders with
  | nil => simp [updateOrderStatus]
  | cons x xs ih =>
    refine List.Forall₂.cons ⟨?_, ?_⟩ ih
    · intro h
      simp [h]
    · intro h
      simp [h]
